import Mathlib

/-!
# recents.c : recent files management from the terminal

A shallow embedding of `recents.c` (add files to, or purge, the GTK+ recent
files list) and the properties of its include task, its clear task, its
confirmation loop and its exit codes.

Modelling conventions.

* Everything the program does to the outside world is recorded, in program
  order, in a trace of `Event`s: a `printf` / `fprintf` call, a `getchar`
  call (with the value it returned), a call of
  `gtk_recent_manager_add_full`, of `gtk_recent_manager_purge_items` and of
  `utime`.
* The library functions the program calls are the fields of `Env`.  The ones
  whose answer depends on the state of the world at the time of the call
  (`fopen`, `realpath`, `gtk_recent_manager_add_full`, `utime`, `errno`) take
  the number `k` of the loop iteration of `main_include_task` that calls them,
  so that the same path may get different answers at different positions of
  the list.  The others (`g_content_type_guess` called without data,
  `g_content_type_get_mime_type`, `g_filename_to_uri`,
  `g_get_application_name`, `strerror`) are functions of their arguments.
* `unsigned` arithmetic is arithmetic modulo `2^32` on `Nat`.
* `exit` and a `return` from `main` end the run with a `Status.exited code`;
  a run that spins forever in the confirmation loop has `Status.hung`.
-/

namespace Recents

/-! ## Data -/

/-- The fields of `GtkRecentData`, as `main_include_task` fills them in.
`groups` is the content of the `NULL`-terminated array. -/
structure GtkRecentData where
  display_name : String
  description : Option String
  mime_type : String
  app_name : Option String
  app_exec : String
  groups : List String
  is_private : Bool
deriving DecidableEq, Repr

/-- One observable action of the program. -/
inductive Event where
  | stdout (s : String)
  | stderr (s : String)
  | getchar (c : Int)
  | add_full (uri : Option String) (data : GtkRecentData)
  | purge_items
  | utime (path : String)
deriving DecidableEq, Repr

/-- The struct `recent_file_options_t`; the three `uint8_t` flags are tested
for being non-zero. -/
structure recent_file_options_t where
  fileNames : List String
  touchFile : Nat
  force : Nat
  quiet : Nat
  result : Int
deriving DecidableEq, Repr

/-- The enum `recents_main_action_t`. -/
inductive recents_main_action_t where
  | RMA_NONE
  | RMA_INCLUDE
  | RMA_CLEAR
  | RMA_HELP
deriving DecidableEq, Repr

open recents_main_action_t

/-- The library functions called by the include task.  `fopen k f` tells whether
`fopen(f, "r")` succeeds in iteration `k`; `realpath k f` is `none` for `NULL`;
`utime k f` is the return value of `utime` and `errno k` the value of `errno`
after it. -/
structure Env where
  fopen : Nat → String → Bool
  realpath : Nat → String → Option String
  g_content_type_guess : String → Option String
  g_content_type_get_mime_type : String → Option String
  g_get_application_name : Option String
  g_filename_to_uri : String → Option String
  gtk_recent_manager_add_full : Nat → Option String → GtkRecentData → Bool
  utime : Nat → String → Int
  errno : Nat → Int
  strerror : Int → String

/-- How a run of the process ends. -/
inductive Status where
  | exited (code : Int)
  | hung
deriving DecidableEq, Repr

/-- A run of the process: what it did and how it ended. -/
structure Run where
  trace : List Event
  status : Status
deriving DecidableEq, Repr

/-! ## The include task -/

/-- The macro `DEFAULT_MIME_TYPE`. -/
def DEFAULT_MIME_TYPE : String := "application/octet-stream"

/-- The function `file_exists`: 1 when the file can be opened for reading. -/
def file_exists (env : Env) (k : Nat) (filename : String) : Int :=
  if env.fopen k filename then 1 else 0

/-- The function `default_mime_type`: a copy of the default. -/
def default_mime_type : String := DEFAULT_MIME_TYPE

/-- The function `get_mime`: the guessed mime type, the default when either
library call returns `NULL`. -/
def get_mime (env : Env) (fileName : String) : String :=
  match env.g_content_type_guess fileName with
  | none => default_mime_type
  | some content_type =>
    match env.g_content_type_get_mime_type content_type with
    | none => default_mime_type
    | some mime_type => mime_type

/-- The record built in lines 148 to 155 of `main_include_task` for the
canonical path `fileName`. -/
def recent_data (env : Env) (fileName : String) : GtkRecentData :=
  { display_name := fileName
    description := none
    mime_type := get_mime env fileName
    app_name := env.g_get_application_name
    app_exec := "recents"
    groups := []
    is_private := false }

/-- One iteration of the `for` loop of `main_include_task`, for the list
element `_fileName` at position `k`: the events and the new value of
`added`. -/
def include_iteration (env : Env) (options : recent_file_options_t) (k : Nat)
    (_fileName : String) (added : Nat) : List Event × Nat :=
  if file_exists env k _fileName = 0 then
    (if options.quiet = 0 then
        [Event.stderr ("Error \x27" ++ _fileName ++ "\x27 does not exist!\n")]
      else [], added)
  else
    match env.realpath k _fileName with
    | none =>
      (if options.quiet = 0 then
          [Event.stderr ("Error getting \x27" ++ _fileName ++ "\x27 path!\n")]
        else [], added)
    | some fileName =>
      let data := recent_data env fileName
      let uri := env.g_filename_to_uri fileName
      let ok := env.gtk_recent_manager_add_full k uri data
      let said :=
        if ok = true ∧ options.quiet = 0 then
          [Event.stdout ("File \x27" ++ fileName ++ "\x27 added successfully\n")]
        else []
      let added1 := if ok then (added + 1) % 4294967296 else added
      let touched :=
        if options.touchFile ≠ 0 then
          Event.utime fileName ::
            (if env.utime k fileName < 0 ∧ options.quiet = 0 then
              [Event.stderr ("Could not touch \x27" ++ fileName ++ "\x27 (errno: "
                ++ toString (env.errno k) ++ ", " ++ env.strerror (env.errno k) ++ ")\n")]
            else [])
        else []
      (Event.add_full uri data :: said ++ touched, added1)

/-- The `for` loop of `main_include_task` over the rest of the list, `k` being
the position of the first remaining element. -/
def include_loop (env : Env) (options : recent_file_options_t) :
    Nat → List String → Nat → List Event × Nat
  | _, [], added => ([], added)
  | k, _fileName :: rest, added =>
    let r := include_iteration env options k _fileName added
    let r2 := include_loop env options (k + 1) rest r.2
    (r.1 ++ r2.1, r2.2)

/-- The function `g_slist_length`, which counts in a `guint`. -/
def g_slist_length (l : List String) : Nat := l.length % 4294967296

/-- The function `main_include_task`: the events of the loop and the options
with `result` set.  (It ends with `gtk_main_quit`.) -/
def main_include_task (env : Env) (options : recent_file_options_t) :
    List Event × recent_file_options_t :=
  let r := include_loop env options 0 options.fileNames 0
  (r.1, { options with
            result := if r.2 = g_slist_length options.fileNames then 0 else 100 })

/-! ### What the include task is expected to count -/

/-- The path at position `k` exists, canonicalizes, and the upsert of its entry
returns true. -/
def path_registers (env : Env) (k : Nat) (path : String) : Bool :=
  env.fopen k path &&
    (match env.realpath k path with
     | none => false
     | some c => env.gtk_recent_manager_add_full k (env.g_filename_to_uri c) (recent_data env c))

/-- The number of positions of the list, numbered from `k`, whose path
registers. -/
def succeeded_from (env : Env) (k : Nat) (paths : List String) : Nat :=
  ((paths.enumFrom k).filter (fun kp => path_registers env kp.1 kp.2)).length

/-- The number of list positions whose path registers. -/
def succeeded (env : Env) (paths : List String) : Nat := succeeded_from env 0 paths

/-- The call of the registry that is due for the path at position `k`: none
when the path cannot be opened or does not canonicalize, else the uri and the
entry of its canonical path. -/
def due_upsert (env : Env) (k : Nat) (path : String) : Option (Option String × GtkRecentData) :=
  if env.fopen k path = true then
    (env.realpath k path).map (fun c => (env.g_filename_to_uri c, recent_data env c))
  else none

/-- The calls of `gtk_recent_manager_add_full` in a trace, in order. -/
def upserts : List Event → List (Option String × GtkRecentData)
  | [] => []
  | Event.add_full uri data :: rest => (uri, data) :: upserts rest
  | _ :: rest => upserts rest

/-! ## The clear task and the confirmation -/

/-- The function `main_clear_task`: a line telling whether the run is quiet,
the purge of the registry, and `result` set to 34.  (It ends with
`gtk_main_quit`.) -/
def main_clear_task (options : recent_file_options_t) :
    List Event × recent_file_options_t :=
  ([if options.quiet = 0 then Event.stdout "No Silencioso\n" else Event.stdout "Silencioso\n",
    Event.purge_items],
   { options with result := 34 })

/-- The function `initialize_options`. -/
def initialize_options : recent_file_options_t :=
  { fileNames := [], touchFile := 0, force := 0, quiet := 0, result := 0 }

/-- Standard input as the C library sees it: the bytes already in the buffer of
the `FILE`, and the non-empty blocks that the coming `read` calls will deliver
(on a terminal, one block per line typed).  After the last block every read
reports the end of the input. -/
structure Stdin where
  buf : List Nat
  pending : List (Nat × List Nat)
deriving DecidableEq, Repr

/-- The number of bytes still to come. -/
def Stdin.size (s : Stdin) : Nat :=
  s.buf.length + (s.pending.map (fun b => b.2.length + 1)).sum

/-- The function `getchar`: the next byte as an `unsigned char`, refilling the
buffer from the next block when it is empty; `EOF` is -1. -/
def getchar (s : Stdin) : Int × Stdin :=
  match s.buf with
  | b :: bs => (((b % 256 : Nat) : Int), { s with buf := bs })
  | [] =>
    match s.pending with
    | [] => (-1, s)
    | (b, bs) :: rest => (((b % 256 : Nat) : Int), { buf := bs, pending := rest })

/-- The function `__fpurge`: the buffered bytes are dropped. -/
def fpurge (s : Stdin) : Stdin := { s with buf := [] }

/-- The function `tolower` on the value returned by `getchar`: the upper case
letters A to Z are mapped to lower case, every other value (`EOF` included) is
returned as it is. -/
def tolower (c : Int) : Int := if 65 ≤ c ∧ c ≤ 90 then c + 32 else c

/-- Conversion of an `int` to the `char` variable `option` (8 bits, signed). -/
def to_char (x : Int) : Int := (x + 128) % 256 - 128

/-- The static `yes` of `confirm_delete`, the letter y. -/
def yes : Int := 121

/-- The static `no` of `confirm_delete`, the letter n. -/
def no : Int := 110

/-- The loop `while (getchar()!='\n');`: the `getchar` events and the input
after the line feed.  At the end of the input `getchar` returns `EOF` again and
again and the loop never ends: `none`.  The first argument bounds the number
of iterations. -/
def skip_line : Nat → Stdin → List Event × Option Stdin
  | 0, _ => ([], none)
  | fuel + 1, s =>
    let r := getchar s
    if r.1 = 10 then ([Event.getchar r.1], some r.2)
    else if r.1 = -1 then ([Event.getchar r.1], none)
    else
      let r2 := skip_line fuel r.2
      (Event.getchar r.1 :: r2.1, r2.2)

/-- The `while` loop of `confirm_delete` entered with the answer `option` and
its `return`: `some b` when the function returns `b`, `none` when it never
returns.  The first argument bounds the number of iterations. -/
def confirm_loop (options : recent_file_options_t) :
    Nat → Int → Stdin → List Event × Option Bool
  | fuel, option, s =>
    if option ≠ yes ∧ option ≠ no then
      match fuel with
      | 0 => ([], none)
      | fuel1 + 1 =>
        let said :=
          if options.quiet = 0 then [Event.stdout "Please press y or n\n"] else []
        match skip_line (s.size + 1) s with
        | (ev, none) => (said ++ ev, none)
        | (ev, some s1) =>
          let r := getchar s1
          let r2 := confirm_loop options fuel1 (to_char (tolower r.1)) (fpurge r.2)
          (said ++ ev ++ Event.getchar r.1 :: r2.1, r2.2)
    else ([], some (decide (option = yes)))

/-- The function `confirm_delete`.  Every iteration of its loop consumes at
least one byte of input or never ends, so the number of bytes to come bounds
the number of iterations. -/
def confirm_delete (options : recent_file_options_t) (stdin : Stdin) :
    List Event × Option Bool :=
  if options.force ≠ 0 then ([], some true)
  else
    let said :=
      if options.quiet = 0 then
        [Event.stdout "Are you sure you want to clear recent files (y/n) "]
      else []
    let r := getchar stdin
    let r2 := confirm_loop options (stdin.size + 1) (to_char (tolower r.1)) (fpurge r.2)
    (said ++ Event.getchar r.1 :: r2.1, r2.2)

/-! ## Help, fatal errors and the configuration check -/

/-- The function `help`: five `fprintf` calls on the standard output. -/
def help : List Event :=
  [ Event.stdout ("recents comes with ABSOLUTELY NO WARRANTY.  This is free software, and you\n"
      ++ "are welcome to redistribute it under certain conditions.  See the GNU\n"
      ++ "General Public Licence for details.\n\n"),
    Event.stdout ("recents is a simple recents file manager allowing you to add and clear\n"
      ++ "your recent files special folder in a GTK+ based environment.\n\n"),
    Event.stdout ("Usage: recents [-qat] FILE [FILE2] ... [FILEn]\n"
      ++ "  or   recents [-qfc]\n"
      ++ "  or   recents [-h]\n\n"),
    Event.stdout ("Options\n"
      ++ " -q, --quiet\t\tQuiet mode. No unnecesary output. Useful for scripting\n"
      ++ " -a, --add\t\tAdd files to recent files. Files must be specified as\n"
      ++ "\t\t\targuments after the options\n"
      ++ " -t, --touch\t\tWhen adding files to recent files, these files are touched\n"
      ++ "\t\t\tto update their modification date. You can now order recent files\n"
      ++ "\t\t\tby date and see them at the top.\n"
      ++ " -c, --clear\t\tClear recent files.\n"
      ++ " -f, --force\t\tForce clean option. Doesn\x27t prompt for confirmation.\n"
      ++ " -h, --help\t\tShows this help.\n\n"),
    Event.stdout ("If you want more information about this software, report bugs, suggestions or\n"
      ++ "any comment, please go to http://gaspar.totaki.com/\n\n") ]

/-- The function `fatal`: the error on the standard error, the help when
`usage` is set, and `exit(1)`. -/
def fatal (error : String) (usage : Int) : Run :=
  { trace :=
      [Event.stderr "There was an unexpected error: \n",
       Event.stderr ("\t" ++ error ++ "\n\n")] ++ (if usage ≠ 0 then help else [])
    status := Status.exited 1 }

/-- The function `check_config`: the warnings it writes, or the run ended by
`fatal` after them. -/
def check_config (options : recent_file_options_t) (action : recents_main_action_t)
    (optind : Nat) (argc : Nat) : Except Run (List Event) :=
  if action = RMA_INCLUDE then
    let warned :=
      if options.force ≠ 0 then
        [Event.stderr "Force option (-f) will be ignored as we are just adding files.\n"]
      else []
    if optind = argc then
      let r := fatal "No files specified\n" 0
      Except.error { r with trace := warned ++ r.trace }
    else Except.ok warned
  else if action = RMA_CLEAR then
    Except.ok
      (if options.touchFile ≠ 0 then
        [Event.stderr "Touch option (-t) will be ignores as we are clearing recent files.\n"]
      else [])
  else Except.ok []

/-! ## The main function -/

/-- What one call of `getopt_long` in the loop of `main` hands back: the
returned code `c`, and the values of `optopt` and `optarg` at that time. -/
structure getopt_result where
  c : Int
  optopt : Int
  optarg : Option String
deriving DecidableEq, Repr

/-- The function `g_strconcat`: the arguments up to the first `NULL`. -/
def g_strconcat : List (Option String) → String
  | [] => ""
  | none :: _ => ""
  | some s :: rest => s ++ g_strconcat rest

/-- The content of `bad_option` after `bad_option[0]=optopt`, as a C string. -/
def bad_option (optopt : Int) : String :=
  if optopt % 256 = 0 then "" else String.singleton (Char.ofNat (optopt % 256).toNat)

/-- The body of the `switch` in the option loop of `main` for the code `c`: the
options and the action after it, or the run ended by `fatal`. -/
def main_switch (r : getopt_result) (options : recent_file_options_t)
    (action : recents_main_action_t) :
    Except Run (recent_file_options_t × recents_main_action_t) :=
  if r.c = 0 then
    Except.error (fatal (g_strconcat [some "Option ", r.optarg, some " not recognized"]) 1)
  else if r.c = 63 then
    Except.error
      (fatal (g_strconcat [some "Option -", some (bad_option r.optopt), some " not recognized"]) 1)
  else if r.c = 113 then Except.ok ({ options with quiet := 1 }, action)
  else if r.c = 102 then Except.ok ({ options with force := 1 }, action)
  else if r.c = 97 then
    if action ≠ RMA_NONE then Except.error (fatal "Only one action can be performed" 1)
    else Except.ok (options, RMA_INCLUDE)
  else if r.c = 116 then Except.ok ({ options with touchFile := 1 }, action)
  else if r.c = 99 then
    if action ≠ RMA_NONE then Except.error (fatal "Only one action can be performed" 1)
    else Except.ok (options, RMA_CLEAR)
  else if r.c = 104 then Except.ok (options, RMA_HELP)
  else Except.error (fatal "Bad usage. Please read help below" 1)

/-- The option loop of `main` over the codes that the successive calls of
`getopt_long` return before -1. -/
def main_options_loop :
    List getopt_result → recent_file_options_t → recents_main_action_t →
      Except Run (recent_file_options_t × recents_main_action_t)
  | [], options, action => Except.ok (options, action)
  | r :: rest, options, action =>
    match main_switch r options action with
    | Except.error run => Except.error run
    | Except.ok (options1, action1) => main_options_loop rest options1 action1

/-- The function `g_slist_append`. -/
def g_slist_append (l : List String) (data : String) : List String := l ++ [data]

/-- The function `main` from line 350 on, after the option loop: the banner,
the configuration check and the selected action.  The task given to
`g_idle_add` runs once in `gtk_main`, which it leaves with `gtk_main_quit`. -/
def main_after_options (env : Env) (options : recent_file_options_t)
    (action : recents_main_action_t) (optind : Nat) (argv : List String) (stdin : Stdin) : Run :=
  let banner :=
    if options.quiet ≠ 0 then
      [Event.stdout ("recents - basic recent files management from terminal\n"
        ++ "by Gaspar Fernandez (2016) http://gaspar.totaki.com/\n\n")]
    else []
  match check_config options action optind argv.length with
  | Except.error r => { r with trace := banner ++ r.trace }
  | Except.ok warned =>
    if action = RMA_HELP then
      { trace := banner ++ warned ++ help, status := Status.exited 0 }
    else if action = RMA_INCLUDE then
      let options1 :=
        { options with fileNames := (argv.drop optind).foldl g_slist_append options.fileNames }
      let r := main_include_task env options1
      { trace := banner ++ warned ++ r.1, status := Status.exited r.2.result }
    else if action = RMA_CLEAR then
      match confirm_delete options stdin with
      | (ev, none) => { trace := banner ++ warned ++ ev, status := Status.hung }
      | (ev, some true) =>
        let r := main_clear_task options
        { trace := banner ++ warned ++ ev ++ r.1, status := Status.exited r.2.result }
      | (ev, some false) => { trace := banner ++ warned ++ ev, status := Status.exited 2 }
    else { trace := banner ++ warned, status := Status.exited 2 }

/-- The function `main`.  `script` is what the calls of `getopt_long` return,
`optind` its final index, `argv` the argument vector as `gtk_init` and
`getopt_long` leave it (the non-options are `argv[optind]` and after). -/
def main (env : Env) (script : List getopt_result) (optind : Nat) (argv : List String)
    (stdin : Stdin) : Run :=
  match main_options_loop script initialize_options RMA_NONE with
  | Except.error run => run
  | Except.ok (options, action) => main_after_options env options action optind argv stdin

/-- The event is a call that reads or changes the registry or touches a file. -/
def Event.is_registry : Event → Bool
  | Event.add_full _ _ => true
  | Event.purge_items => true
  | Event.utime _ => true
  | _ => false

/-- The event is a read of the standard input. -/
def Event.is_read : Event → Bool
  | Event.getchar _ => true
  | _ => false

/-- The event writes on the standard output or the standard error. -/
def Event.is_output : Event → Bool
  | Event.stdout _ => true
  | Event.stderr _ => true
  | _ => false

/-! ## Worlds, inputs and command lines used as examples -/

/-- A world in which every file but `missingFile` can be opened, the path
`./a.txt` canonicalizes to `/abs/dir/a.txt` and every other path to itself,
the registry accepts every entry and `utime` succeeds. -/
def example_env : Env :=
  { fopen := fun _ f => f != "missingFile"
    realpath := fun _ f => if f = "./a.txt" then some "/abs/dir/a.txt" else some f
    g_content_type_guess := fun _ => none
    g_content_type_get_mime_type := fun _ => none
    g_get_application_name := some "recents"
    g_filename_to_uri := fun f => some ("file://" ++ f)
    gtk_recent_manager_add_full := fun _ _ _ => true
    utime := fun _ _ => 0
    errno := fun _ => 0
    strerror := fun _ => "" }

/-- The block that `read` delivers for a line typed on a terminal: the bytes
of the line and the line feed. -/
def line_block (line : List Nat) : Nat × List Nat :=
  match line with
  | [] => (10, [])
  | b :: bs => (b, bs ++ [10])

/-- What `getopt_long` returns for the short option with the code `c`. -/
def short_option (c : Int) : getopt_result := { c := c, optopt := 0, optarg := none }

/-- The text with which `confirm_delete` asks again. -/
def reprompt : Event := Event.stdout "Please press y or n\n"

/-- The text with which `confirm_delete` asks first. -/
def prompt : Event := Event.stdout "Are you sure you want to clear recent files (y/n) "

/-- The events of the reads of the bytes of a line. -/
def read_events (line : List Nat) : List Event :=
  line.map (fun b => Event.getchar ((b % 256 : Nat) : Int))

/-! ## Lemmas on the include task -/

theorem include_iteration_added (env : Env) (options : recent_file_options_t) (k : Nat)
    (path : String) (added : Nat) :
    (include_iteration env options k path added).2 =
      if path_registers env k path = true then (added + 1) % 4294967296 else added := by
  unfold include_iteration path_registers file_exists
  cases hf : env.fopen k path
  · simp
  · cases hr : env.realpath k path with
    | none => simp
    | some c =>
      cases ha : env.gtk_recent_manager_add_full k (env.g_filename_to_uri c) (recent_data env c)
        <;> simp [ha]

theorem succeeded_from_nil (env : Env) (k : Nat) : succeeded_from env k [] = 0 := by
  simp [succeeded_from]

theorem succeeded_from_cons (env : Env) (k : Nat) (path : String) (rest : List String) :
    succeeded_from env k (path :: rest) =
      (if path_registers env k path = true then 1 else 0) + succeeded_from env (k + 1) rest := by
  unfold succeeded_from
  rw [List.enumFrom_cons, List.filter_cons]
  by_cases h : path_registers env k path = true
  · simp [h]; omega
  · simp [h]

theorem succeeded_from_le (env : Env) (paths : List String) :
    ∀ k, succeeded_from env k paths ≤ paths.length := by
  induction paths with
  | nil => intro k; simp [succeeded_from_nil]
  | cons path rest ih =>
    intro k
    rw [succeeded_from_cons]
    have := ih (k + 1)
    simp only [List.length_cons]
    split <;> omega

theorem include_loop_added (env : Env) (options : recent_file_options_t)
    (paths : List String) :
    ∀ (k added : Nat), added < 4294967296 →
      (include_loop env options k paths added).2 =
        (added + succeeded_from env k paths) % 4294967296 := by
  induction paths with
  | nil =>
    intro k added h
    simp only [include_loop, succeeded_from_nil]
    omega
  | cons path rest ih =>
    intro k added h
    simp only [include_loop]
    rw [include_iteration_added, succeeded_from_cons]
    by_cases hp : path_registers env k path = true
    · simp only [hp, if_true]
      rw [ih (k + 1) _ (Nat.mod_lt _ (by norm_num))]
      omega
    · simp only [hp, Bool.false_eq_true, if_false]
      rw [ih (k + 1) _ h]
      simp

theorem include_loop_added_zero (env : Env) (options : recent_file_options_t)
    (paths : List String) (hlen : paths.length < 4294967296) :
    (include_loop env options 0 paths 0).2 = succeeded env paths := by
  rw [include_loop_added env options paths 0 0 (by norm_num)]
  have := succeeded_from_le env paths 0
  unfold succeeded
  omega

/-! ## Lemmas on the confirmation -/

theorem getchar_of_block (b : Nat) (bs : List Nat) (rest : List (Nat × List Nat)) :
    getchar ⟨[], (b, bs) :: rest⟩ = (((b % 256 : Nat) : Int), ⟨bs, rest⟩) := rfl

theorem skip_line_of_buf (line : List Nat) :
    ∀ (fuel : Nat) (tl : List Nat) (p : List (Nat × List Nat)),
      (∀ b ∈ line, b % 256 ≠ 10) → line.length < fuel →
      skip_line fuel ⟨line ++ 10 :: tl, p⟩ =
        (read_events line ++ [Event.getchar 10], some ⟨tl, p⟩) := by
  induction line with
  | nil =>
    intro fuel tl p _ hfuel
    obtain ⟨f, rfl⟩ : ∃ f, fuel = f + 1 := ⟨fuel - 1, by simp at hfuel; omega⟩
    simp [skip_line, getchar, read_events]
  | cons b bs ih =>
    intro fuel tl p hline hfuel
    obtain ⟨f, rfl⟩ : ∃ f, fuel = f + 1 := ⟨fuel - 1, by simp at hfuel; omega⟩
    have hb : b % 256 ≠ 10 := hline b (by simp)
    have hbs : ∀ x ∈ bs, x % 256 ≠ 10 := fun x hx => hline x (by simp [hx])
    have hf : bs.length < f := by simp at hfuel; omega
    have h1 : (((b % 256 : Nat) : Int) = 10) = False := by
      simp only [eq_iff_iff, iff_false]; omega
    have h2 : (((b % 256 : Nat) : Int) = -1) = False := by
      simp only [eq_iff_iff, iff_false]; omega
    simp only [skip_line, List.cons_append, getchar, h1, h2, if_false]
    rw [ih f tl p hbs hf]
    simp [read_events]

theorem skip_line_of_block (line : List Nat) (fuel : Nat) (rest : List (Nat × List Nat))
    (hline : ∀ b ∈ line, b % 256 ≠ 10) (hfuel : line.length < fuel) :
    skip_line fuel ⟨[], line_block line :: rest⟩ =
      (read_events line ++ [Event.getchar 10], some ⟨[], rest⟩) := by
  obtain ⟨f, rfl⟩ : ∃ f, fuel = f + 1 := ⟨fuel - 1, by omega⟩
  cases line with
  | nil => simp [skip_line, getchar, read_events, line_block]
  | cons b bs =>
    have hb : b % 256 ≠ 10 := hline b (by simp)
    have hbs : ∀ x ∈ bs, x % 256 ≠ 10 := fun x hx => hline x (by simp [hx])
    have hf : bs.length < f := by simp at hfuel; omega
    have h1 : (((b % 256 : Nat) : Int) = 10) = False := by
      simp only [eq_iff_iff, iff_false]; omega
    have h2 : (((b % 256 : Nat) : Int) = -1) = False := by
      simp only [eq_iff_iff, iff_false]; omega
    simp only [skip_line, line_block, getchar, h1, h2, if_false]
    rw [skip_line_of_buf bs f [] rest hbs hf]
    simp [read_events]

theorem skip_line_events (fuel : Nat) :
    ∀ (s : Stdin), ∀ e ∈ (skip_line fuel s).1, e.is_read = true := by
  induction fuel with
  | zero => intro s e he; simp [skip_line] at he
  | succ f ih =>
    intro s e he
    simp only [skip_line] at he
    split at he
    · simp at he; subst he; rfl
    · split at he
      · simp at he; subst he; rfl
      · simp only [List.mem_cons] at he
        rcases he with rfl | he
        · rfl
        · exact ih _ e he

theorem confirm_loop_events (options : recent_file_options_t) (fuel : Nat) :
    ∀ (option : Int) (s : Stdin), ∀ e ∈ (confirm_loop options fuel option s).1,
      e.is_read = true ∨ e = reprompt := by
  induction fuel with
  | zero =>
    intro option s e he
    unfold confirm_loop at he
    split at he <;> simp at he
  | succ f ih =>
    intro option s e he
    unfold confirm_loop at he
    split at he
    · simp only at he
      split at he
      · rename_i ev hsk
        simp only [List.mem_append] at he
        rcases he with he | he
        · split at he
          · simp at he; right; exact he
          · simp at he
        · left
          have := skip_line_events (s.size + 1) s e
          rw [hsk] at this
          exact this he
      · rename_i ev s1 hsk
        simp only [List.mem_append, List.mem_cons] at he
        rcases he with (he | he) | he | he
        · split at he
          · simp at he; right; exact he
          · simp at he
        · left
          have := skip_line_events (s.size + 1) s e
          rw [hsk] at this
          exact this he
        · left; subst he; rfl
        · exact ih _ _ e he
    · simp at he

theorem confirm_delete_events (options : recent_file_options_t) (stdin : Stdin) :
    ∀ e ∈ (confirm_delete options stdin).1, e.is_read = true ∨ e = reprompt ∨ e = prompt := by
  intro e he
  unfold confirm_delete at he
  split at he
  · simp at he
  · simp only [List.mem_append, List.mem_cons] at he
    rcases he with he | he | he
    · split at he
      · simp at he; right; right; exact he
      · simp at he
    · left; subst he; rfl
    · rcases confirm_loop_events _ _ _ _ e he with h | h
      · left; exact h
      · right; left; exact h

theorem confirm_delete_no_registry (options : recent_file_options_t) (stdin : Stdin) :
    ∀ e ∈ (confirm_delete options stdin).1, e.is_registry = false := by
  intro e he
  rcases confirm_delete_events options stdin e he with h | h | h
  · cases e <;> simp_all [Event.is_read, Event.is_registry]
  · subst h; rfl
  · subst h; rfl

theorem confirm_delete_force (options : recent_file_options_t) (stdin : Stdin)
    (hforce : options.force ≠ 0) : confirm_delete options stdin = ([], some true) := by
  simp [confirm_delete, hforce]

theorem upserts_append (a b : List Event) : upserts (a ++ b) = upserts a ++ upserts b := by
  induction a with
  | nil => rfl
  | cons e rest ih => cases e <;> simp [upserts, ih]

theorem include_iteration_upserts (env : Env) (options : recent_file_options_t) (k : Nat)
    (path : String) (added : Nat) :
    upserts (include_iteration env options k path added).1 = (due_upsert env k path).toList := by
  unfold include_iteration due_upsert file_exists
  cases hf : env.fopen k path
  · by_cases hq : options.quiet = 0 <;> simp [hq, upserts]
  · cases hr : env.realpath k path with
    | none => by_cases hq : options.quiet = 0 <;> simp [hq, upserts]
    | some c =>
      by_cases hq : options.quiet = 0 <;> by_cases ht : options.touchFile = 0 <;>
        cases ha : env.gtk_recent_manager_add_full k (env.g_filename_to_uri c)
          (recent_data env c) <;>
        by_cases hu : env.utime k c < 0 <;>
        simp [hq, ht, hu, ha, upserts]

theorem include_loop_upserts (env : Env) (options : recent_file_options_t)
    (paths : List String) :
    ∀ (k added : Nat),
      upserts (include_loop env options k paths added).1 =
        (paths.enumFrom k).filterMap (fun kp => due_upsert env kp.1 kp.2) := by
  induction paths with
  | nil => intro k added; simp [include_loop, upserts]
  | cons path rest ih =>
    intro k added
    simp only [include_loop, upserts_append, include_iteration_upserts, ih,
      List.enumFrom_cons, List.filterMap_cons]
    cases due_upsert env k path <;> simp

/-! ## The include task: properties -/

/-- C1: for every list of requested paths whose length fits the `guint` in
which `g_slist_length` counts (every list built from `argv` does),
`main_include_task` sets `result` to 0 if and only if the number of list
positions that registered equals the length of the list, and to 100 in every
other case; whatever the library calls answer. -/
theorem C1_include_result (env : Env) (options : recent_file_options_t)
    (hlen : options.fileNames.length < 4294967296) :
    ((main_include_task env options).2.result = 0 ↔
        succeeded env options.fileNames = options.fileNames.length) ∧
      (succeeded env options.fileNames ≠ options.fileNames.length →
        (main_include_task env options).2.result = 100) := by
  have hadd := include_loop_added_zero env options options.fileNames hlen
  have hmod : g_slist_length options.fileNames = options.fileNames.length := by
    unfold g_slist_length; omega
  simp only [main_include_task, hadd, hmod]
  by_cases h : succeeded env options.fileNames = options.fileNames.length
  · simp [h]
  · simp [h]

/-- C1 at the inputs of the specification: with `exists1`, `missingFile`,
`exists2` two of three paths register and the result is 100; with `exists1`,
`exists2` the result is 0. -/
theorem C1_include_result_witness :
    succeeded example_env ["exists1", "missingFile", "exists2"] = 2 ∧
    (main_include_task example_env
        { initialize_options with fileNames := ["exists1", "missingFile", "exists2"] }).2.result
      = 100 ∧
    (main_include_task example_env
        { initialize_options with fileNames := ["exists1", "exists2"] }).2.result = 0 :=
  ⟨by decide,
   (C1_include_result example_env
      { initialize_options with fileNames := ["exists1", "missingFile", "exists2"] }
      (by decide)).2 (by decide),
   (C1_include_result example_env
      { initialize_options with fileNames := ["exists1", "exists2"] }
      (by decide)).1.2 (by decide)⟩

/-- C2: the value of `added` at the end of the loop of `main_include_task` is
the number of list positions whose path exists, canonicalizes and is accepted
by the registry; a path that fails is skipped and the later ones are still
processed, the registry being called for every position whose path exists and
canonicalizes, in the order of the list; and the value of `added` is the same
for every other setting of the flags and whatever `utime` returns. -/
theorem C2_succeeded_count (env : Env) (options : recent_file_options_t) (paths : List String)
    (hlen : paths.length < 4294967296) :
    (include_loop env options 0 paths 0).2 = succeeded env paths ∧
      upserts (include_loop env options 0 paths 0).1 =
        (paths.enumFrom 0).filterMap (fun kp => due_upsert env kp.1 kp.2) ∧
      ∀ (options2 : recent_file_options_t) (utime2 : Nat → String → Int) (errno2 : Nat → Int),
        (include_loop { env with utime := utime2, errno := errno2 } options2 0 paths 0).2 =
          (include_loop env options 0 paths 0).2 := by
  refine ⟨include_loop_added_zero env options paths hlen,
    include_loop_upserts env options paths 0 0, ?_⟩
  intro options2 utime2 errno2
  rw [include_loop_added_zero env options paths hlen,
    include_loop_added_zero _ options2 paths hlen]
  rfl

/-- C2 on the list `exists1`, `missingFile`, `exists2`: two paths are counted
without touching, and also when every file is touched and every touch fails;
the registry is called for the first and for the third path. -/
theorem C2_succeeded_count_witness :
    (include_loop example_env initialize_options 0 ["exists1", "missingFile", "exists2"] 0).2
        = 2 ∧
      (include_loop { example_env with utime := fun _ _ => -1, errno := fun _ => 13 }
        { initialize_options with touchFile := 1 } 0
        ["exists1", "missingFile", "exists2"] 0).2 = 2 ∧
      (upserts (include_loop example_env initialize_options 0
        ["exists1", "missingFile", "exists2"] 0).1).map (fun u => u.1) =
          [some "file://exists1", some "file://exists2"] :=
  have h := C2_succeeded_count example_env initialize_options
    ["exists1", "missingFile", "exists2"] (by decide)
  have h2 : succeeded example_env ["exists1", "missingFile", "exists2"] = 2 := by decide
  ⟨h.1.trans h2,
   (h.2.2 { initialize_options with touchFile := 1 } (fun _ _ => -1) (fun _ => 13)).trans
     (h.1.trans h2),
   (congrArg (List.map (fun u => u.1)) h.2.1).trans (by decide)⟩

/-- C9: two raw paths that exist and canonicalize to the same path `c` make
the loop of `main_include_task` call `gtk_recent_manager_add_full` once each,
with the same uri and the same entry: the uri of `c`, `c` as display name, the
mime type of `c`, the application name, `recents` as command, no group, not
private; whatever the raw paths, their positions and the flags. -/
theorem C9_entry_of_canonical_path (env : Env) (options1 options2 : recent_file_options_t)
    (k1 k2 added1 added2 : Nat) (raw1 raw2 c : String)
    (hexists1 : env.fopen k1 raw1 = true) (hreal1 : env.realpath k1 raw1 = some c)
    (hexists2 : env.fopen k2 raw2 = true) (hreal2 : env.realpath k2 raw2 = some c) :
    upserts (include_iteration env options1 k1 raw1 added1).1 =
        [(env.g_filename_to_uri c,
          { display_name := c, description := none, mime_type := get_mime env c,
            app_name := env.g_get_application_name, app_exec := "recents", groups := [],
            is_private := false })] ∧
      upserts (include_iteration env options2 k2 raw2 added2).1 =
        upserts (include_iteration env options1 k1 raw1 added1).1 := by
  have key : ∀ (options : recent_file_options_t) (k added : Nat) (raw : String),
      env.fopen k raw = true → env.realpath k raw = some c →
      upserts (include_iteration env options k raw added).1 =
        [(env.g_filename_to_uri c, recent_data env c)] := by
    intro options k added raw hf hr
    rw [include_iteration_upserts]
    simp [due_upsert, hf, hr]
  rw [key options1 k1 added1 raw1 hexists1 hreal1, key options2 k2 added2 raw2 hexists2 hreal2]
  exact ⟨rfl, rfl⟩

/-- C9 for `./a.txt` and `/abs/dir/a.txt`: both are registered under the uri
`file:///abs/dir/a.txt`, the second one quietly and touched. -/
theorem C9_entry_of_canonical_path_witness :
    upserts (main_include_task example_env
        { initialize_options with fileNames := ["./a.txt"] }).1 =
      [(some "file:///abs/dir/a.txt",
        { display_name := "/abs/dir/a.txt", description := none,
          mime_type := "application/octet-stream", app_name := some "recents",
          app_exec := "recents", groups := [], is_private := false })] ∧
    upserts (main_include_task example_env
        { initialize_options with fileNames := ["/abs/dir/a.txt"], quiet := 1, touchFile := 1 }).1 =
      upserts (main_include_task example_env
        { initialize_options with fileNames := ["./a.txt"] }).1 :=
  have h := C9_entry_of_canonical_path example_env
    { initialize_options with fileNames := ["./a.txt"] }
    { initialize_options with fileNames := ["/abs/dir/a.txt"], quiet := 1, touchFile := 1 }
    0 0 0 0 "./a.txt" "/abs/dir/a.txt" "/abs/dir/a.txt"
    (by decide) (by decide) (by decide) (by decide)
  by
    simp only [main_include_task, include_loop, List.append_nil]
    exact ⟨h.1.trans (by decide), h.2⟩

/-! ## Lemmas on the main function -/

theorem main_of_options (env : Env) (script : List getopt_result) (optind : Nat)
    (argv : List String) (stdin : Stdin) (options : recent_file_options_t)
    (action : recents_main_action_t)
    (hloop : main_options_loop script initialize_options RMA_NONE = Except.ok (options, action)) :
    main env script optind argv stdin =
      main_after_options env options action optind argv stdin := by
  simp [main, hloop]

theorem help_is_output : ∀ e ∈ help, e.is_output = true := by
  intro e he
  simp only [help, List.mem_cons, List.mem_singleton, List.not_mem_nil, or_false] at he
  rcases he with rfl | rfl | rfl | rfl | rfl <;> rfl

theorem fatal_is_output (error : String) (usage : Int) :
    ∀ e ∈ (fatal error usage).trace, e.is_output = true := by
  intro e he
  simp only [fatal, List.mem_append, List.mem_cons, List.mem_singleton, List.not_mem_nil,
    or_false] at he
  rcases he with (rfl | rfl) | he
  · rfl
  · rfl
  · split at he
    · exact help_is_output e he
    · simp at he

theorem main_switch_error (r : getopt_result) (options : recent_file_options_t)
    (action : recents_main_action_t) (run : Run)
    (h : main_switch r options action = Except.error run) :
    ∃ error, run = fatal error 1 := by
  unfold main_switch at h
  repeat (first
    | (split at h)
    | (injection h with h; exact ⟨_, h.symm⟩)
    | (exact absurd h (by simp)))

theorem main_options_loop_error (script : List getopt_result) :
    ∀ (options : recent_file_options_t) (action : recents_main_action_t) (run : Run),
      main_options_loop script options action = Except.error run →
      ∃ error, run = fatal error 1 := by
  induction script with
  | nil => intro options action run h; simp [main_options_loop] at h
  | cons r rest ih =>
    intro options action run h
    simp only [main_options_loop] at h
    split at h
    · rename_i run1 hs
      injection h with h
      subst h
      exact main_switch_error r options action _ hs
    · exact ih _ _ _ h

theorem main_switch_action (r : getopt_result) (options options1 : recent_file_options_t)
    (action action1 : recents_main_action_t) (hact : action ≠ RMA_NONE)
    (h : main_switch r options action = Except.ok (options1, action1)) :
    action1 ≠ RMA_NONE ∧ r.c ≠ 97 ∧ r.c ≠ 99 := by
  unfold main_switch at h
  by_cases h0 : r.c = 0
  · simp [h0] at h
  by_cases h63 : r.c = 63
  · simp [h63] at h
  by_cases h113 : r.c = 113
  · simp [h113] at h; rw [← h.2]; exact ⟨hact, by omega, by omega⟩
  by_cases h102 : r.c = 102
  · simp [h102] at h; rw [← h.2]; exact ⟨hact, by omega, by omega⟩
  by_cases h97 : r.c = 97
  · simp [h97, hact] at h
  by_cases h116 : r.c = 116
  · simp [h116] at h; rw [← h.2]; exact ⟨hact, by omega, by omega⟩
  by_cases h99 : r.c = 99
  · simp [h99, hact] at h
  by_cases h104 : r.c = 104
  · simp [h104] at h; rw [← h.2]; exact ⟨by simp, by omega, by omega⟩
  simp [h0, h63, h113, h102, h97, h116, h99, h104] at h

theorem main_switch_first_action (r : getopt_result) (options options1 : recent_file_options_t)
    (action action1 : recents_main_action_t) (hc : r.c = 97 ∨ r.c = 99)
    (h : main_switch r options action = Except.ok (options1, action1)) :
    action1 ≠ RMA_NONE := by
  unfold main_switch at h
  rcases hc with hc | hc
  · by_cases hact : action = RMA_NONE
    · simp [hc, hact] at h; rw [← h.2]; simp
    · simp [hc, hact] at h
  · by_cases hact : action = RMA_NONE
    · simp [hc, hact] at h; rw [← h.2]; simp
    · simp [hc, hact] at h

theorem main_options_loop_second_action (script : List getopt_result) :
    ∀ (options : recent_file_options_t) (action : recents_main_action_t),
      action ≠ RMA_NONE → (∃ r ∈ script, r.c = 97 ∨ r.c = 99) →
      ∃ run, main_options_loop script options action = Except.error run := by
  induction script with
  | nil => intro options action _ h; simp at h
  | cons r rest ih =>
    intro options action hact h
    simp only [main_options_loop]
    cases hs : main_switch r options action with
    | error run => exact ⟨run, rfl⟩
    | ok p =>
      obtain ⟨options1, action1⟩ := p
      have h1 := main_switch_action r options options1 action action1 hact hs
      simp only
      apply ih options1 action1 h1.1
      obtain ⟨x, hx, hxc⟩ := h
      simp only [List.mem_cons] at hx
      rcases hx with rfl | hx
      · rcases hxc with hxc | hxc
        · exact absurd hxc h1.2.1
        · exact absurd hxc h1.2.2
      · exact ⟨x, hx, hxc⟩

theorem main_options_loop_conflict (script : List getopt_result) :
    ∀ (options : recent_file_options_t) (action : recents_main_action_t),
      (∃ r ∈ script, r.c = 97) → (∃ r ∈ script, r.c = 99) →
      ∃ run, main_options_loop script options action = Except.error run := by
  induction script with
  | nil => intro options action h; simp at h
  | cons r rest ih =>
    intro options action ha hc
    simp only [main_options_loop]
    cases hs : main_switch r options action with
    | error run => exact ⟨run, rfl⟩
    | ok p =>
      obtain ⟨options1, action1⟩ := p
      simp only
      obtain ⟨x, hx, hxa⟩ := ha
      obtain ⟨y, hy, hyc⟩ := hc
      simp only [List.mem_cons] at hx hy
      rcases hx with rfl | hx
      · rcases hy with rfl | hy
        · omega
        · exact main_options_loop_second_action rest options1 action1
            (main_switch_first_action _ options options1 action action1 (Or.inl hxa) hs)
            ⟨y, hy, Or.inr hyc⟩
      · rcases hy with rfl | hy
        · exact main_options_loop_second_action rest options1 action1
            (main_switch_first_action _ options options1 action action1 (Or.inr hyc) hs)
            ⟨x, hx, Or.inl hxa⟩
        · exact ih options1 action1 ⟨x, hx, hxa⟩ ⟨y, hy, hyc⟩

theorem output_not_registry (e : Event) (h : e.is_output = true) :
    e.is_registry = false ∧ e.is_read = false := by
  cases e <;> simp_all [Event.is_output, Event.is_registry, Event.is_read]

/-! ## The clear task: properties -/

/-- C3: on a command line that selects the clear action with the force flag
set, whatever the quiet flag and the pending input, `confirm_delete` returns
true without a `getchar` and without printing, the registry is purged exactly
once, no input is read and no question is written, and the process ends with
the code 34. -/
theorem C3_force_clear (env : Env) (script : List getopt_result) (optind : Nat)
    (argv : List String) (stdin : Stdin) (options : recent_file_options_t)
    (hloop : main_options_loop script initialize_options RMA_NONE =
      Except.ok (options, RMA_CLEAR))
    (hforce : options.force ≠ 0) :
    confirm_delete options stdin = ([], some true) ∧
      (main env script optind argv stdin).status = Status.exited 34 ∧
      (main env script optind argv stdin).trace.count Event.purge_items = 1 ∧
      ∀ e ∈ (main env script optind argv stdin).trace,
        e.is_read = false ∧ e ≠ prompt ∧ e ≠ reprompt := by
  refine ⟨confirm_delete_force options stdin hforce, ?_⟩
  rw [main_of_options env script optind argv stdin options RMA_CLEAR hloop]
  simp only [main_after_options, check_config, confirm_delete_force options stdin hforce,
    main_clear_task]
  by_cases hq : options.quiet = 0 <;> by_cases ht : options.touchFile = 0 <;>
    simp [hq, ht, Event.is_read, prompt, reprompt]

/-- C3 on the command line `-c -f -q` with a pending `n`: purged once, code
34. -/
theorem C3_force_clear_witness :
    confirm_delete { initialize_options with force := 1, quiet := 1 } ⟨[], [line_block [110]]⟩ =
        ([], some true) ∧
      (main example_env [short_option 99, short_option 102, short_option 113] 4
          ["recents", "-c", "-f", "-q"] ⟨[], [line_block [110]]⟩).status = Status.exited 34 ∧
      (main example_env [short_option 99, short_option 102, short_option 113] 4
          ["recents", "-c", "-f", "-q"] ⟨[], [line_block [110]]⟩).trace.count
        Event.purge_items = 1 :=
  have h := C3_force_clear example_env [short_option 99, short_option 102, short_option 113] 4
    ["recents", "-c", "-f", "-q"] ⟨[], [line_block [110]]⟩
    { initialize_options with force := 1, quiet := 1 } rfl (by decide)
  ⟨h.1, h.2.1, h.2.2.1⟩

/-- C4: on a command line that selects the clear action, when `confirm_delete`
returns false (which it does only without the force flag) the process ends
with the code 2 and its trace holds no call that reads or changes the
registry: no purge, no upsert, no touch. -/
theorem C4_declined_clear (env : Env) (script : List getopt_result) (optind : Nat)
    (argv : List String) (stdin : Stdin) (options : recent_file_options_t) (ev : List Event)
    (hloop : main_options_loop script initialize_options RMA_NONE =
      Except.ok (options, RMA_CLEAR))
    (hno : confirm_delete options stdin = (ev, some false)) :
    options.force = 0 ∧
      (main env script optind argv stdin).status = Status.exited 2 ∧
      Event.purge_items ∉ (main env script optind argv stdin).trace ∧
      ∀ e ∈ (main env script optind argv stdin).trace, e.is_registry = false := by
  have hforce : options.force = 0 := by
    by_contra h
    rw [confirm_delete_force options stdin h] at hno
    simp at hno
  have hev : ∀ e ∈ ev, e.is_registry = false := by
    have := confirm_delete_no_registry options stdin
    rw [hno] at this
    exact this
  have hall : ∀ e ∈ (main env script optind argv stdin).trace, e.is_registry = false := by
    rw [main_of_options env script optind argv stdin options RMA_CLEAR hloop]
    intro e he
    simp [main_after_options, check_config, hno] at he
    rcases he with ⟨_, rfl⟩ | ⟨_, rfl⟩ | he
    · rfl
    · rfl
    · exact hev e he
  refine ⟨hforce, ?_, ?_, hall⟩
  · rw [main_of_options env script optind argv stdin options RMA_CLEAR hloop]
    simp [main_after_options, check_config, hno]
  · intro hmem
    have := hall _ hmem
    simp [Event.is_registry] at this

/-- C4 on the command line `-c` with the answer `n`: code 2 and no purge. -/
theorem C4_declined_clear_witness :
    (main example_env [short_option 99] 2 ["recents", "-c"] ⟨[], [line_block [110]]⟩).status =
        Status.exited 2 ∧
      Event.purge_items ∉
        (main example_env [short_option 99] 2 ["recents", "-c"] ⟨[], [line_block [110]]⟩).trace :=
  have h := C4_declined_clear example_env [short_option 99] 2 ["recents", "-c"]
    ⟨[], [line_block [110]]⟩ initialize_options [prompt, Event.getchar 110]
    rfl (by decide)
  ⟨h.2.1, h.2.2.1⟩

theorem line_block_length (line : List Nat) : (line_block line).2.length = line.length := by
  cases line <;> simp [line_block]

theorem count_read_events (e : Event) (he : e.is_read = false) (line : List Nat) :
    (read_events line).count e = 0 := by
  rw [List.count_eq_zero]
  intro hmem
  simp only [read_events, List.mem_map] at hmem
  obtain ⟨b, _, rfl⟩ := hmem
  simp [Event.is_read] at he

theorem confirm_loop_decided (options : recent_file_options_t) (fuel : Nat) (option : Int)
    (s : Stdin) (h : option = yes ∨ option = no) :
    confirm_loop options fuel option s = ([], some (decide (option = yes))) := by
  unfold confirm_loop
  rw [if_neg]
  intro hne
  rcases h with h | h
  · exact hne.1 h
  · exact hne.2 h

theorem confirm_loop_retry (options : recent_file_options_t) (fuel : Nat) (option : Int)
    (s s1 : Stdin) (ev : List Event) (h1 : option ≠ yes) (h2 : option ≠ no)
    (hsk : skip_line (s.size + 1) s = (ev, some s1)) :
    confirm_loop options (fuel + 1) option s =
      ((if options.quiet = 0 then [reprompt] else []) ++ ev ++
          Event.getchar (getchar s1).1 ::
            (confirm_loop options fuel (to_char (tolower (getchar s1).1))
              (fpurge (getchar s1).2)).1,
        (confirm_loop options fuel (to_char (tolower (getchar s1).1))
          (fpurge (getchar s1).2)).2) := by
  rw [confirm_loop, if_pos ⟨h1, h2⟩]
  simp only [hsk, reprompt]

theorem confirm_loop_hang (options : recent_file_options_t) (fuel : Nat) (option : Int)
    (s : Stdin) (ev : List Event) (h1 : option ≠ yes) (h2 : option ≠ no)
    (hsk : skip_line (s.size + 1) s = (ev, none)) :
    confirm_loop options (fuel + 1) option s =
      ((if options.quiet = 0 then [reprompt] else []) ++ ev, none) := by
  rw [confirm_loop, if_pos ⟨h1, h2⟩]
  simp only [hsk, reprompt]

/-- What follows a second question when every `read` delivers one line: the
line typed next is skipped as a whole, and the answer is the first byte of the
line after it. -/
theorem confirm_delete_retry (options : recent_file_options_t) (c y : Nat) (r1 r3 line : List Nat)
    (rest : List (Nat × List Nat)) (hforce : options.force = 0)
    (hc1 : to_char (tolower ((c % 256 : Nat) : Int)) ≠ yes)
    (hc2 : to_char (tolower ((c % 256 : Nat) : Int)) ≠ no)
    (hline : ∀ b ∈ line, b % 256 ≠ 10)
    (hy : to_char (tolower ((y % 256 : Nat) : Int)) = yes) :
    confirm_delete options ⟨[], (c, r1) :: line_block line :: (y, r3) :: rest⟩ =
      ((if options.quiet = 0 then [prompt] else []) ++
          Event.getchar ((c % 256 : Nat) : Int) ::
            ((if options.quiet = 0 then [reprompt] else []) ++ read_events line ++
              [Event.getchar 10, Event.getchar ((y % 256 : Nat) : Int)]),
        some true) := by
  have hsk := skip_line_of_block line
    ((fpurge ⟨r1, line_block line :: (y, r3) :: rest⟩).size + 1) ((y, r3) :: rest) hline
    (by simp [fpurge, Stdin.size, line_block_length]; omega)
  unfold confirm_delete
  simp only [hforce, ne_eq, not_true_eq_false, if_false, getchar_of_block]
  rw [confirm_loop_retry options _ _ _ _ _ hc1 hc2 hsk]
  simp only [getchar_of_block]
  rw [confirm_loop_decided _ _ _ _ (Or.inl hy), hy]
  simp [prompt]

/-- C6: on every command line that selects the include action and leaves no
file argument (`optind == argc`), whatever the flags, the process ends with
the code 1 in `check_config`, and its trace holds no call that reads or
changes the registry and no read of the input. -/
theorem C6_include_without_files (env : Env) (script : List getopt_result) (optind : Nat)
    (argv : List String) (stdin : Stdin) (options : recent_file_options_t)
    (hloop : main_options_loop script initialize_options RMA_NONE =
      Except.ok (options, RMA_INCLUDE))
    (hnofiles : optind = argv.length) :
    (main env script optind argv stdin).status = Status.exited 1 ∧
      ∀ e ∈ (main env script optind argv stdin).trace,
        e.is_registry = false ∧ e.is_read = false := by
  rw [main_of_options env script optind argv stdin options RMA_INCLUDE hloop]
  simp only [main_after_options, check_config, hnofiles, if_true]
  refine ⟨by simp [fatal], ?_⟩
  intro e he
  apply output_not_registry
  simp only [List.mem_append] at he
  rcases he with he | he | he
  · split at he
    · simp at he; subst he; rfl
    · simp at he
  · split at he
    · simp at he; subst he; rfl
    · simp at he
  · exact fatal_is_output _ _ e he

/-- C6 on the command line `-t -f -q -a`: code 1. -/
theorem C6_include_without_files_witness :
    (main example_env [short_option 116, short_option 102, short_option 113, short_option 97] 5
        ["recents", "-t", "-f", "-q", "-a"] ⟨[], []⟩).status = Status.exited 1 :=
  (C6_include_without_files example_env
    [short_option 116, short_option 102, short_option 113, short_option 97] 5
    ["recents", "-t", "-f", "-q", "-a"] ⟨[], []⟩
    { initialize_options with touchFile := 1, force := 1, quiet := 1 } rfl rfl).1

/-- C7: when the codes returned by `getopt_long` hold both the one of `-a` and
the one of `-c`, in any order and among any other codes, the run is a call of
`fatal` with the usage: the process ends with the code 1, and its trace holds
no call that reads or changes the registry, no read of the input and no
question of `confirm_delete`. -/
theorem C7_conflicting_actions (env : Env) (script : List getopt_result) (optind : Nat)
    (argv : List String) (stdin : Stdin)
    (hadd : ∃ r ∈ script, r.c = 97) (hclear : ∃ r ∈ script, r.c = 99) :
    (∃ error, main env script optind argv stdin = fatal error 1) ∧
      (main env script optind argv stdin).status = Status.exited 1 ∧
      ∀ e ∈ (main env script optind argv stdin).trace,
        e.is_registry = false ∧ e.is_read = false ∧ e ≠ prompt ∧ e ≠ reprompt := by
  obtain ⟨run, hrun⟩ :=
    main_options_loop_conflict script initialize_options RMA_NONE hadd hclear
  obtain ⟨error, herr⟩ := main_options_loop_error script _ _ run hrun
  have hmain : main env script optind argv stdin = fatal error 1 := by
    simp [main, hrun, herr]
  rw [hmain]
  refine ⟨⟨error, rfl⟩, rfl, ?_⟩
  intro e he
  have hout := fatal_is_output error 1 e he
  refine ⟨(output_not_registry e hout).1, (output_not_registry e hout).2, ?_, ?_⟩
  · rintro rfl
    simp [fatal, prompt, help] at he
  · rintro rfl
    simp [fatal, reprompt, help] at he

/-- C7 on the command line `-q -c -t -a file`: code 1. -/
theorem C7_conflicting_actions_witness :
    (main example_env [short_option 113, short_option 99, short_option 116, short_option 97] 5
        ["recents", "-q", "-c", "-t", "-a", "exists1"] ⟨[], [line_block [121]]⟩).status =
      Status.exited 1 :=
  (C7_conflicting_actions example_env
    [short_option 113, short_option 99, short_option 116, short_option 97] 5
    ["recents", "-q", "-c", "-t", "-a", "exists1"] ⟨[], [line_block [121]]⟩
    ⟨short_option 97, by simp, rfl⟩ ⟨short_option 99, by simp, rfl⟩).2.1

/-- C8 fails on the code: the quiet run `-q -a exists1` registers the file and
writes the banner (which a run without `-q` does not write), and the quiet run
`-q -c -f` writes the banner and the line `Silencioso` before it purges. -/
theorem C8_quiet_run_writes :
    (main example_env [short_option 113, short_option 97] 3
        ["recents", "-q", "-a", "exists1"] ⟨[], []⟩) =
      { trace :=
          [Event.stdout ("recents - basic recent files management from terminal\n"
              ++ "by Gaspar Fernandez (2016) http://gaspar.totaki.com/\n\n"),
           Event.add_full (some "file://exists1")
             { display_name := "exists1", description := none,
               mime_type := "application/octet-stream", app_name := some "recents",
               app_exec := "recents", groups := [], is_private := false }]
        status := Status.exited 0 } ∧
    (main example_env [short_option 113, short_option 99, short_option 102] 4
        ["recents", "-q", "-c", "-f"] ⟨[], []⟩) =
      { trace :=
          [Event.stdout ("recents - basic recent files management from terminal\n"
              ++ "by Gaspar Fernandez (2016) http://gaspar.totaki.com/\n\n"),
           Event.stdout "Silencioso\n",
           Event.purge_items]
        status := Status.exited 34 } ∧
    (main example_env [short_option 97] 2 ["recents", "-a", "exists1"] ⟨[], []⟩).trace =
      [Event.add_full (some "file://exists1")
         { display_name := "exists1", description := none,
           mime_type := "application/octet-stream", app_name := some "recents",
           app_exec := "recents", groups := [], is_private := false },
       Event.stdout "File \x27exists1\x27 added successfully\n"] := by
  decide

/-- C10, as stated, fails: the command line without any option selects no
action, and the process ends with the code 2 although the clear action was
not selected and nothing was asked. -/
theorem C10_no_action_exits_two :
    (main example_env [] 1 ["recents"] ⟨[], []⟩) = { trace := [], status := Status.exited 2 } ∧
      ¬ ∃ options, main_options_loop [] initialize_options RMA_NONE =
        Except.ok (options, RMA_CLEAR) := by
  refine ⟨by decide, ?_⟩
  rintro ⟨options, h⟩
  simp [main_options_loop] at h

/-- C10, amended: the process ends with the code 2 only if the clear action
was selected without the force flag and `confirm_delete` returned false, or if
the command line selected no action at all. -/
theorem C10_exit_code_two (env : Env) (script : List getopt_result) (optind : Nat)
    (argv : List String) (stdin : Stdin)
    (hexit : (main env script optind argv stdin).status = Status.exited 2) :
    (∃ options ev,
        main_options_loop script initialize_options RMA_NONE = Except.ok (options, RMA_CLEAR) ∧
        options.force = 0 ∧ confirm_delete options stdin = (ev, some false)) ∨
      (∃ options,
        main_options_loop script initialize_options RMA_NONE = Except.ok (options, RMA_NONE)) := by
  cases hloop : main_options_loop script initialize_options RMA_NONE with
  | error run =>
    obtain ⟨error, herr⟩ := main_options_loop_error script _ _ run hloop
    simp [main, hloop, herr, fatal] at hexit
  | ok p =>
    obtain ⟨options, action⟩ := p
    rw [main_of_options env script optind argv stdin options action hloop] at hexit
    cases action with
    | RMA_NONE => exact Or.inr ⟨options, rfl⟩
    | RMA_HELP => simp [main_after_options, check_config] at hexit
    | RMA_INCLUDE =>
      exfalso
      simp only [main_after_options, check_config] at hexit
      by_cases hn : optind = argv.length
      · simp [hn, fatal] at hexit
      · simp only [hn, if_false, main_include_task] at hexit
        simp at hexit
        split at hexit <;> simp at hexit
    | RMA_CLEAR =>
      left
      simp only [main_after_options, check_config] at hexit
      rcases hc : confirm_delete options stdin with ⟨ev, _ | b⟩
      · simp [hc] at hexit
      · cases b with
        | true => simp [hc, main_clear_task] at hexit
        | false =>
          refine ⟨options, ev, rfl, ?_, hc⟩
          by_contra h
          rw [confirm_delete_force options stdin h] at hc
          simp at hc

/-- C10, amended, on the command line without options: the code 2 comes from
one of the two cases (here the second, no action). -/
theorem C10_exit_code_two_witness :
    (∃ options ev,
        main_options_loop [] initialize_options RMA_NONE = Except.ok (options, RMA_CLEAR) ∧
        options.force = 0 ∧ confirm_delete options ⟨[], []⟩ = (ev, some false)) ∨
      (∃ options,
        main_options_loop [] initialize_options RMA_NONE = Except.ok (options, RMA_NONE)) :=
  C10_exit_code_two example_env [] 1 ["recents"] ⟨[], []⟩ (by decide)

/-! ## The bound on the iterations of the confirmation is never what stops it -/

theorem getchar_size (s : Stdin) (h : (getchar s).1 ≠ -1) :
    (getchar s).2.size + 1 = s.size := by
  obtain ⟨buf, pending⟩ := s
  cases buf with
  | cons b bs => simp [getchar, Stdin.size]; omega
  | nil =>
    cases pending with
    | nil => simp [getchar] at h
    | cons blk rest =>
      obtain ⟨b, bs⟩ := blk
      simp [getchar, Stdin.size]; omega

theorem getchar_size_le (s : Stdin) : (getchar s).2.size ≤ s.size := by
  by_cases h : (getchar s).1 = -1
  · obtain ⟨buf, pending⟩ := s
    cases buf with
    | cons b bs => simp [getchar, Stdin.size]
    | nil =>
      cases pending with
      | nil => simp [getchar]
      | cons blk rest =>
        obtain ⟨b, bs⟩ := blk
        simp [getchar, Stdin.size]
  · have := getchar_size s h
    omega

theorem fpurge_size_le (s : Stdin) : (fpurge s).size ≤ s.size := by
  simp [fpurge, Stdin.size]

theorem skip_line_size (fuel : Nat) :
    ∀ (s s1 : Stdin) (ev : List Event), skip_line fuel s = (ev, some s1) → s1.size < s.size := by
  induction fuel with
  | zero => intro s s1 ev h; simp [skip_line] at h
  | succ f ih =>
    intro s s1 ev h
    simp only [skip_line] at h
    by_cases h10 : (getchar s).1 = 10
    · simp only [h10, if_true, Prod.mk.injEq, Option.some.injEq] at h
      have := getchar_size s (by rw [h10]; decide)
      rw [← h.2]; omega
    · by_cases heof : (getchar s).1 = -1
      · simp [h10, heof] at h
      · simp only [h10, heof, if_false, Prod.mk.injEq] at h
        have h1 := ih (getchar s).2 s1 (skip_line f (getchar s).2).1 (Prod.ext rfl h.2)
        have := getchar_size s heof
        omega

theorem skip_line_fuel (fuel : Nat) :
    ∀ (s : Stdin), s.size < fuel → skip_line fuel s = skip_line (s.size + 1) s := by
  induction fuel with
  | zero => intro s h; omega
  | succ f ih =>
    intro s h
    simp only [skip_line]
    by_cases h10 : (getchar s).1 = 10
    · simp [h10]
    · by_cases heof : (getchar s).1 = -1
      · simp [heof]
      · have hsz := getchar_size s heof
        simp only [h10, heof, if_false]
        rw [ih (getchar s).2 (by omega), hsz]

/-- With at least as many iterations allowed as `confirm_delete` allows, the
loop of `confirm_delete` gives the same events and the same answer: its result
does not depend on the bound. -/
theorem confirm_loop_fuel (options : recent_file_options_t) (fuel : Nat) :
    ∀ (option : Int) (s : Stdin), s.size < fuel →
      confirm_loop options fuel option s = confirm_loop options (s.size + 1) option s := by
  induction fuel using Nat.strong_induction_on with
  | _ fuel ih =>
    intro option s h
    obtain ⟨f, rfl⟩ : ∃ f, fuel = f + 1 := ⟨fuel - 1, by omega⟩
    by_cases hd : option = yes ∨ option = no
    · rw [confirm_loop_decided _ _ _ _ hd, confirm_loop_decided _ _ _ _ hd]
    · have h1 : option ≠ yes := fun x => hd (Or.inl x)
      have h2 : option ≠ no := fun x => hd (Or.inr x)
      rcases hsk : skip_line (s.size + 1) s with ⟨ev, _ | s1⟩
      · rw [confirm_loop_hang options f option s ev h1 h2 hsk,
          confirm_loop_hang options s.size option s ev h1 h2 hsk]
      · by_cases heq : s.size = f
        · rw [heq]
        · rw [confirm_loop_retry options f option s s1 ev h1 h2 hsk,
            confirm_loop_retry options s.size option s s1 ev h1 h2 hsk]
          have hs1 := skip_line_size _ s s1 ev hsk
          have hg := getchar_size_le s1
          have hp := fpurge_size_le (getchar s1).2
          rw [ih f (by omega) _ (fpurge (getchar s1).2) (by omega),
            ih s.size (by omega) _ (fpurge (getchar s1).2) (by omega)]

end Recents
